import Mathlib

/-!
Verification of the streaming chat client (`src/app/chat/page.tsx`,
`handleSubmit`).  JavaScript strings are modelled as lists of characters
(`Str`); the `TextDecoder` in streaming mode reassembles code points across
byte boundaries, so a byte-level fragmentation of the transport corresponds
exactly to a character-level fragmentation of the decoded text, which is what
the model quantifies over.  `JSON.parse` is modelled by an executable
recursive-descent parser over the same representation, returning `none` where
`JSON.parse` throws.
-/

/-- Strings of the JavaScript runtime, as lists of characters. -/
abbrev Str := List Char

/-- Embeds a Lean string literal into the model's string type. -/
def lit (s : String) : Str := s.data

/-- Whitespace as recognised by `String.prototype.trim` (the characters that
can actually occur in this client's data: ASCII whitespace, NBSP, BOM). -/
def isJsWs (c : Char) : Bool :=
  c == ' ' || c == '\t' || c == '\n' || c == '\r' ||
  c == '\x0b' || c == '\x0c' || c == ' ' || c == '﻿'

/-- Model of `s.trim()`: drop leading and trailing whitespace. -/
def jsTrim (s : Str) : Str :=
  ((s.dropWhile isJsWs).reverse.dropWhile isJsWs).reverse

/-- Model of `buffer.split("\n")` combined with `lines.pop() || ""`
(page.tsx:129-130): the first component is the list of complete lines
(everything before each newline), the second is the trailing partial line
kept in the buffer. -/
def splitNl : Str → List Str × Str
  | [] => ([], [])
  | c :: rest =>
    let r := splitNl rest
    if c = '\n' then ([] :: r.1, r.2)
    else
      match r.1 with
      | [] => ([], c :: r.2)
      | l :: ls => ((c :: l) :: ls, r.2)

theorem splitNl_cons_nl (rest : Str) :
    splitNl ('\n' :: rest) = ([] :: (splitNl rest).1, (splitNl rest).2) := by
  simp [splitNl]

theorem splitNl_cons (c : Char) (rest : Str) (hc : c ≠ '\n') :
    splitNl (c :: rest) =
      (match (splitNl rest).1 with
       | [] => ([], c :: (splitNl rest).2)
       | l :: ls => ((c :: l) :: ls, (splitNl rest).2)) := by
  simp [splitNl, hc]

theorem splitNl_no_newline_snd (s : Str) : '\n' ∉ (splitNl s).2 := by
  induction s with
  | nil => simp [splitNl]
  | cons c rest ih =>
    by_cases hc : c = '\n'
    · simp [splitNl, hc, ih]
    · rw [splitNl_cons c rest hc]
      cases hr : (splitNl rest).1 with
      | nil =>
        show '\n' ∉ c :: (splitNl rest).2
        simp only [List.mem_cons, not_or]
        exact ⟨fun h => hc h.symm, ih⟩
      | cons l ls => simpa using ih

theorem splitNl_of_no_newline (s : Str) (h : '\n' ∉ s) : splitNl s = ([], s) := by
  induction s with
  | nil => simp [splitNl]
  | cons c rest ih =>
    have hc : c ≠ '\n' := by
      intro hc; exact h (by simp [hc])
    have hrest : '\n' ∉ rest := by
      intro hm; exact h (by simp [hm])
    rw [splitNl_cons c rest hc, ih hrest]

theorem splitNl_append (a b : Str) :
    splitNl (a ++ b) =
      ((splitNl a).1 ++ (splitNl ((splitNl a).2 ++ b)).1,
       (splitNl ((splitNl a).2 ++ b)).2) := by
  induction a with
  | nil => simp [splitNl]
  | cons c a' ih =>
    by_cases hc : c = '\n'
    · subst hc
      simp only [List.cons_append, splitNl_cons_nl, ih]
    · cases ha : (splitNl a').1 with
      | nil =>
        have ih' : splitNl (a' ++ b) =
            ((splitNl ((splitNl a').2 ++ b)).1, (splitNl ((splitNl a').2 ++ b)).2) := by
          rw [ih, ha]; simp
        rw [List.cons_append, splitNl_cons c (a' ++ b) hc, splitNl_cons c a' hc, ha, ih']
        simp only [List.cons_append]
        rw [splitNl_cons c ((splitNl a').2 ++ b) hc]
        cases hb : (splitNl ((splitNl a').2 ++ b)).1 <;> simp [hb]
      | cons l ls =>
        have ih' : splitNl (a' ++ b) =
            (l :: (ls ++ (splitNl ((splitNl a').2 ++ b)).1),
             (splitNl ((splitNl a').2 ++ b)).2) := by
          rw [ih, ha]; simp
        rw [List.cons_append, splitNl_cons c (a' ++ b) hc, splitNl_cons c a' hc, ha, ih']
        simp

/-- JSON values as produced by `JSON.parse`.  Numbers keep their source
lexeme: no claim depends on float arithmetic, and the lexeme determines
truthiness (the only numeric observation the client makes). -/
inductive Json where
  | null
  | bool (b : Bool)
  | num (lexeme : Str)
  | str (s : Str)
  | arr (elems : List Json)
  | obj (fields : List (Str × Json))

/-- Value of a hexadecimal digit, for string escapes. -/
def hexVal (c : Char) : Option Nat :=
  if c.isDigit then some (c.toNat - 48)
  else if 'a' ≤ c && c ≤ 'f' then some (c.toNat - 87)
  else if 'A' ≤ c && c ≤ 'F' then some (c.toNat - 55)
  else none

/-- Parses the remainder of a JSON string literal (after the opening quote),
returning the decoded characters and the rest of the input; `none` where
`JSON.parse` throws (bad escape, unterminated string, raw control char). -/
def parseStrRest : Str → Option (Str × Str)
  | [] => none
  | '"' :: r => some ([], r)
  | '\\' :: '"' :: r => (parseStrRest r).map (fun p => ('"' :: p.1, p.2))
  | '\\' :: '\\' :: r => (parseStrRest r).map (fun p => ('\\' :: p.1, p.2))
  | '\\' :: '/' :: r => (parseStrRest r).map (fun p => ('/' :: p.1, p.2))
  | '\\' :: 'n' :: r => (parseStrRest r).map (fun p => ('\n' :: p.1, p.2))
  | '\\' :: 't' :: r => (parseStrRest r).map (fun p => ('\t' :: p.1, p.2))
  | '\\' :: 'r' :: r => (parseStrRest r).map (fun p => ('\r' :: p.1, p.2))
  | '\\' :: 'b' :: r => (parseStrRest r).map (fun p => ('\x08' :: p.1, p.2))
  | '\\' :: 'f' :: r => (parseStrRest r).map (fun p => ('\x0c' :: p.1, p.2))
  | '\\' :: 'u' :: a :: b :: c :: d :: r =>
    match hexVal a, hexVal b, hexVal c, hexVal d with
    | some x, some y, some z, some w =>
      (parseStrRest r).map (fun p => (Char.ofNat (((x * 16 + y) * 16 + z) * 16 + w) :: p.1, p.2))
    | _, _, _, _ => none
  | '\\' :: _ => none
  | c :: r =>
    if c.toNat < 32 then none
    else (parseStrRest r).map (fun p => (c :: p.1, p.2))

/-- Optional fraction part of a JSON number (lexeme and rest). -/
def parseFracPart (s : Str) : Option (Str × Str) :=
  match s with
  | '.' :: r =>
    let ds := r.takeWhile Char.isDigit
    if ds = [] then none else some ('.' :: ds, r.dropWhile Char.isDigit)
  | _ => some ([], s)

/-- Optional exponent part of a JSON number (lexeme and rest). -/
def parseExpPart (s : Str) : Option (Str × Str) :=
  match s with
  | c :: r =>
    if c = 'e' || c = 'E' then
      let p := match r with
               | '+' :: t => ((['+'] : Str), t)
               | '-' :: t => ((['-'] : Str), t)
               | _ => (([] : Str), r)
      let ds := p.2.takeWhile Char.isDigit
      if ds = [] then none else some (c :: (p.1 ++ ds), p.2.dropWhile Char.isDigit)
    else some ([], s)
  | [] => some ([], [])

/-- Parses a JSON number per the JSON grammar (rejecting leading zeros such
as `01`, exactly as `JSON.parse` does), keeping the lexeme. -/
def parseNumLit (s : Str) : Option (Json × Str) :=
  let p := match s with
           | '-' :: r => ((['-'] : Str), r)
           | _ => (([] : Str), s)
  let ipOpt : Option (Str × Str) :=
    match p.2 with
    | '0' :: r =>
      match r with
      | c :: _ => if c.isDigit then none else some (['0'], r)
      | [] => some (['0'], [])
    | c :: r =>
      if c.isDigit then some (c :: r.takeWhile Char.isDigit, r.dropWhile Char.isDigit)
      else none
    | [] => none
  match ipOpt with
  | none => none
  | some (ip, s2) =>
    match parseFracPart s2 with
    | none => none
    | some (fp, s3) =>
      match parseExpPart s3 with
      | none => none
      | some (ep, s4) => some (.num (p.1 ++ ip ++ fp ++ ep), s4)

/-- JSON insignificant whitespace. -/
def isJsonWs (c : Char) : Bool :=
  c == ' ' || c == '\t' || c == '\n' || c == '\r'

/-- Drops insignificant JSON whitespace. -/
def skipWs (s : Str) : Str := s.dropWhile isJsonWs

mutual

/-- Parses one JSON value; the fuel argument bounds nesting and is chosen
large enough in `parseJson` that it never runs out on real input. -/
def parseVal : Nat → Str → Option (Json × Str)
  | 0, _ => none
  | fuel + 1, s =>
    match skipWs s with
    | '{' :: rest =>
      match skipWs rest with
      | '}' :: r => some (.obj [], r)
      | s' => parseMembers fuel s' []
    | '[' :: rest =>
      match skipWs rest with
      | ']' :: r => some (.arr [], r)
      | s' => parseElems fuel s' []
    | '"' :: rest => (parseStrRest rest).map (fun p => (.str p.1, p.2))
    | 't' :: 'r' :: 'u' :: 'e' :: r => some (.bool true, r)
    | 'f' :: 'a' :: 'l' :: 's' :: 'e' :: r => some (.bool false, r)
    | 'n' :: 'u' :: 'l' :: 'l' :: r => some (.null, r)
    | s' => parseNumLit s'

/-- Parses the members of a JSON object (after `{`, at least one member). -/
def parseMembers : Nat → Str → List (Str × Json) → Option (Json × Str)
  | 0, _, _ => none
  | fuel + 1, s, acc =>
    match s with
    | '"' :: rest =>
      match parseStrRest rest with
      | none => none
      | some (k, r1) =>
        match skipWs r1 with
        | ':' :: r2 =>
          match parseVal fuel r2 with
          | none => none
          | some (v, r3) =>
            match skipWs r3 with
            | ',' :: r4 => parseMembers fuel (skipWs r4) (acc ++ [(k, v)])
            | '}' :: r4 => some (.obj (acc ++ [(k, v)]), r4)
            | _ => none
        | _ => none
    | _ => none

/-- Parses the elements of a JSON array (after `[`, at least one element). -/
def parseElems : Nat → Str → List Json → Option (Json × Str)
  | 0, _, _ => none
  | fuel + 1, s, acc =>
    match parseVal fuel s with
    | none => none
    | some (v, r) =>
      match skipWs r with
      | ',' :: r2 => parseElems fuel r2 (acc ++ [v])
      | ']' :: r2 => some (.arr (acc ++ [v]), r2)
      | _ => none

end

/-- Model of `JSON.parse`: parse a complete value and require only trailing
whitespace after it; `none` models a thrown `SyntaxError`. -/
def parseJson (s : Str) : Option Json :=
  match parseVal (2 * s.length + 8) s with
  | some (j, r) => if skipWs r = [] then some j else none
  | none => none

/-- Field access `obj.key` on a parsed JSON value: `none` models JavaScript
`undefined` (missing field or non-object receiver).  Later duplicate keys win,
as in `JSON.parse`. -/
def jfield (j : Json) (key : Str) : Option Json :=
  match j with
  | .obj fields =>
    (fields.filter (fun f => f.1 == key)).getLast?.map (fun f => f.2)
  | _ => none

/-- Does a JSON number lexeme denote zero (all mantissa digits `0`)? -/
def isZeroLexeme (lex : Str) : Bool :=
  (lex.takeWhile (fun c => c != 'e' && c != 'E')).all
    (fun c => c == '-' || c == '+' || c == '0' || c == '.')

/-- JavaScript truthiness of a possibly-undefined parsed value, as used by
`if (cardData.done)` and `if (tokenData.done)`. -/
def truthy : Option Json → Bool
  | none => false
  | some .null => false
  | some (.bool b) => b
  | some (.num lex) => !isZeroLexeme lex
  | some (.str s) => !s.isEmpty
  | some (.arr _) => true
  | some (.obj _) => true

mutual

/-- String coercion of one array element per `Array.prototype.join`: `null`
prints empty, everything else as `String(v)`.  Number coercion uses the
source lexeme, abstracting JavaScript float formatting, which no claim
observes. -/
def jsElemStr : Json → Str
  | .null => []
  | .bool true => lit "true"
  | .bool false => lit "false"
  | .num lex => lex
  | .str s => s
  | .obj _ => lit "[object Object]"
  | .arr xs => jsArrStr xs

/-- Joins array elements with commas, per `Array.prototype.join`. -/
def jsArrStr : List Json → Str
  | [] => []
  | [j] => jsElemStr j
  | j :: js => jsElemStr j ++ ',' :: jsArrStr js

end

/-- String coercion of `tokenData.token`, as in
`msg.content + tokenData.token`: `none` is `undefined`, printing
`"undefined"`; `some` cases follow `String(v)`. -/
def jsToStr : Option Json → Str
  | none => lit "undefined"
  | some .null => lit "null"
  | some (.bool true) => lit "true"
  | some (.bool false) => lit "false"
  | some (.num lex) => lex
  | some (.str s) => s
  | some (.obj _) => lit "[object Object]"
  | some (.arr xs) => jsArrStr xs

/-- Does the parsed event satisfy `data.type === "cards"` (page.tsx:142)? -/
def isCardsVal (j : Json) : Bool :=
  match jfield j (lit "type") with
  | some (.str s) => s == lit "cards"
  | _ => false

/-- Roles of chat messages. -/
inductive Role where
  | user
  | assistant
deriving DecidableEq

/-- The `ExtendedMessage` record of the client (page.tsx:43-45): id, role,
content, creation timestamp (`Date.now()` milliseconds), and the optional
structured `cardData` payload. -/
structure Msg where
  id : Str
  role : Role
  content : Str
  createdAt : Nat
  cardData : Option Json := none

/-- Decimal digits of `n`, most significant first, by structural recursion
on a fuel bound (so that kernel reduction works on concrete inputs). -/
def natReprAux : Nat → Nat → Str
  | 0, _ => []
  | fuel + 1, n =>
    if n < 10 then [Nat.digitChar n]
    else natReprAux fuel (n / 10) ++ [Nat.digitChar (n % 10)]

/-- Decimal rendering of a timestamp, as in template literals like
`user-${Date.now()}`. -/
def natRepr (n : Nat) : Str := natReprAux (n + 1) n

/-- Id of the user message of a submission (page.tsx:70). -/
def userId (t : Nat) : Str := lit "user-" ++ natRepr t

/-- Id of the assistant message of a submission (page.tsx:84). -/
def asstId (t : Nat) : Str := lit "assistant-" ++ natRepr t

/-- The user message appended on submission (page.tsx:69-74). -/
def mkUserMsg (t : Nat) (content : Str) : Msg :=
  { id := userId t, role := .user, content := content, createdAt := t }

/-- The empty assistant placeholder appended before streaming
(page.tsx:85-90). -/
def mkAsstMsg (t : Nat) : Msg :=
  { id := asstId t, role := .assistant, content := [], createdAt := t }

/-- The fixed content set on a cards event (page.tsx:149). -/
def cardsContent : Str := lit "Work Order Search Results"

/-- The fixed connectivity-failure notice of the catch handler
(page.tsx:213). -/
def fallbackText : Str :=
  lit "I'm sorry, I'm having trouble connecting to the chat service. Please check that the backend is running on localhost:5001 and try again."

/-- Model of `prev.map(msg => msg.id === assistantId ? f(msg) : msg)`
(page.tsx:144-154 and 166-175). -/
def updateById (aid : Str) (f : Msg → Msg) (msgs : List Msg) : List Msg :=
  msgs.map (fun m => if m.id = aid then f m else m)

/-- Processes one line of the stream (the body of the `for` loop,
page.tsx:132-192): returns the updated message list and whether the
submission is finished (`return` was reached because `done` was truthy). -/
def processLine (aid : Str) (msgs : List Msg) (line : Str) : List Msg × Bool :=
  if jsTrim line = [] then (msgs, false)
  else if (lit "data: ").isPrefixOf line then
    match parseJson (line.drop 6) with
    | none => (msgs, false)
    | some data =>
      if isCardsVal data then
        (updateById aid
          (fun m => { m with content := cardsContent,
                             cardData := jfield data (lit "data") }) msgs,
         truthy (jfield data (lit "done")))
      else
        (updateById aid
          (fun m => { m with content := m.content ++ jsToStr (jfield data (lit "token")) }) msgs,
         truthy (jfield data (lit "done")))
  else (msgs, false)

/-- Result of running the line loop or the chunk loop: final message list,
whether a `done` event ended the interaction, and the lines actually
processed (in order, including a final `done` line). -/
structure RunOut where
  msgs : List Msg
  done : Bool
  used : List Str

/-- Processes a list of complete lines in order, stopping at the first line
whose event carries a truthy `done` (the `return` statements at
page.tsx:159 and 181). -/
def processLines (aid : Str) (msgs : List Msg) : List Str → RunOut
  | [] => ⟨msgs, false, []⟩
  | l :: ls =>
    let p := processLine aid msgs l
    if p.2 then ⟨p.1, true, [l]⟩
    else
      let r := processLines aid p.1 ls
      ⟨r.msgs, r.done, l :: r.used⟩

/-- Processes one decoded chunk (page.tsx:126-193): append to the buffer,
split off the complete lines, keep the trailing partial line. -/
def processChunk (aid : Str) (msgs : List Msg) (buf chunk : Str) : RunOut × Str :=
  let p := splitNl (buf ++ chunk)
  (processLines aid msgs p.1, p.2)

/-- The reader loop (page.tsx:120-194) over the decoded chunks of the
response body, threading the buffer and stopping once a `done` event was
processed. -/
def runChunks (aid : Str) (msgs : List Msg) (buf : Str) : List Str → RunOut × Str
  | [] => (⟨msgs, false, []⟩, buf)
  | c :: cs =>
    let r := processChunk aid msgs buf c
    if r.1.done then r
    else
      let r2 := runChunks aid r.1.msgs r.2 cs
      (⟨r2.1.msgs, r2.1.done, r.1.used ++ r2.1.used⟩, r2.2)

/-- UI state touched by `handleSubmit`: the message list, the input field and
the `isGenerating` flag. -/
structure UIState where
  messages : List Msg
  input : Str
  isGenerating : Bool

/-- Outcome of the `fetch` call, as far as the client can observe it: a
non-success HTTP status or missing body (both `throw` before any chunk is
read, page.tsx:106-112), or a stream of decoded chunks after which the
reader either ends normally or raises (a network error surfacing from
`reader.read()`). -/
inductive FetchOutcome where
  | httpError
  | stream (chunks : List Str) (raisesAfter : Bool)

/-- The catch handler's per-message update (page.tsx:207-217): only an
assistant-prefixed id with still-empty content is overwritten with the
fallback notice. -/
def catchFix (m : Msg) : Msg :=
  if (lit "assistant-").isPrefixOf m.id ∧ m.content = [] then
    { m with content := fallbackText }
  else m

/-- The catch handler applied to the whole message list (page.tsx:207-217). -/
def applyCatch (msgs : List Msg) : List Msg := msgs.map catchFix

/-- One submission (`handleSubmit`, page.tsx:60-225): the guard at line 67,
the optimistic user message and assistant placeholder, then the streaming
loop or the error path, with `setIsGenerating(false)` in every exit path
(the `finally` at line 220).  `tU` and `tA` are the `Date.now()` readings at
the two message creations.  The second component reports whether a network
request was issued. -/
def handleSubmit (st : UIState) (tU tA : Nat) (out : FetchOutcome) : UIState × Bool :=
  if jsTrim st.input = [] ∨ st.isGenerating = true then (st, false)
  else
    let msgs2 := st.messages ++ [mkUserMsg tU (jsTrim st.input)] ++ [mkAsstMsg tA]
    match out with
    | .httpError =>
      ({ messages := applyCatch msgs2, input := [], isGenerating := false }, true)
    | .stream chunks raisesAfter =>
      let r := runChunks (asstId tA) msgs2 [] chunks
      if r.1.done then
        ({ messages := r.1.msgs, input := [], isGenerating := false }, true)
      else if raisesAfter then
        ({ messages := applyCatch r.1.msgs, input := [], isGenerating := false }, true)
      else
        ({ messages := r.1.msgs, input := [], isGenerating := false }, true)

/-- The two event shapes the loop distinguishes, plus `skip` for lines it
ignores (blank, unprefixed, or unparseable). -/
inductive SseEvent where
  | token (text : Str) (done : Bool)
  | cards (data : Option Json) (done : Bool)
  | skip

/-- Decodes one complete line the way the loop body interprets it. -/
def decodeLine (line : Str) : SseEvent :=
  if jsTrim line = [] then .skip
  else if (lit "data: ").isPrefixOf line then
    match parseJson (line.drop 6) with
    | none => .skip
    | some data =>
      if isCardsVal data then
        .cards (jfield data (lit "data")) (truthy (jfield data (lit "done")))
      else
        .token (jsToStr (jfield data (lit "token"))) (truthy (jfield data (lit "done")))
  else .skip

/-- Whether an event carries a truthy `done` and hence ends the
interaction. -/
def eventDone : SseEvent → Bool
  | .token _ d => d
  | .cards _ d => d
  | .skip => false

/-- Effect of one event on the assistant message. -/
def applyEventMsg : SseEvent → Msg → Msg
  | .token t _, m => { m with content := m.content ++ t }
  | .cards d _, m => { m with content := cardsContent, cardData := d }
  | .skip, m => m

/-- Effect of a sequence of events on the assistant message. -/
def applyEvents (es : List SseEvent) (m : Msg) : Msg :=
  es.foldl (fun m e => applyEventMsg e m) m

/-- The lines a run actually processes: everything up to and including the
first line whose event is `done`, with the flag recording whether such a
line was reached. -/
def takeUsed : List Str → List Str × Bool
  | [] => ([], false)
  | l :: ls =>
    if eventDone (decodeLine l) then ([l], true)
    else
      let r := takeUsed ls
      (l :: r.1, r.2)

/-- All complete lines the buffering produces from a chunk sequence,
ignoring early exit. -/
def streamLines (buf : Str) : List Str → List Str
  | [] => []
  | c :: cs =>
    let p := splitNl (buf ++ c)
    p.1 ++ streamLines p.2 cs

theorem applyEventMsg_id (e : SseEvent) (m : Msg) : (applyEventMsg e m).id = m.id := by
  cases e <;> rfl

theorem applyEvents_id (es : List SseEvent) (m : Msg) : (applyEvents es m).id = m.id := by
  induction es generalizing m with
  | nil => rfl
  | cons e es ih => rw [applyEvents, List.foldl_cons, ← applyEvents, ih, applyEventMsg_id]

theorem applyEvents_append (es1 es2 : List SseEvent) (m : Msg) :
    applyEvents (es1 ++ es2) m = applyEvents es2 (applyEvents es1 m) := by
  simp [applyEvents, List.foldl_append]

/-- Shorthand for the map the loop applies to the message list. -/
def updEvents (aid : Str) (es : List SseEvent) (m : Msg) : Msg :=
  if m.id = aid then applyEvents es m else m

theorem updEvents_nil (aid : Str) : updEvents aid [] = id := by
  funext m
  simp [updEvents, applyEvents]

theorem updEvents_comp (aid : Str) (es1 es2 : List SseEvent) (m : Msg) :
    updEvents aid es2 (updEvents aid es1 m) = updEvents aid (es1 ++ es2) m := by
  by_cases h : m.id = aid
  · simp [updEvents, h, applyEvents_id, applyEvents_append]
  · simp [updEvents, h]

theorem processLine_decode (aid : Str) (msgs : List Msg) (line : Str) :
    processLine aid msgs line =
      (msgs.map (updEvents aid [decodeLine line]), eventDone (decodeLine line)) := by
  unfold processLine decodeLine
  by_cases h1 : jsTrim line = []
  · simp [h1, updEvents_nil, eventDone,
      show (fun m => updEvents aid [SseEvent.skip] m) = id from by
        funext m; simp [updEvents, applyEvents, applyEventMsg]]
  · by_cases h2 : (lit "data: ").isPrefixOf line
    · cases hp : parseJson (line.drop 6) with
      | none =>
        simp [h1, h2, hp, eventDone,
          show (fun m => updEvents aid [SseEvent.skip] m) = id from by
            funext m; simp [updEvents, applyEvents, applyEventMsg]]
      | some data =>
        by_cases hc : isCardsVal data
        · simp [h1, h2, hp, hc, eventDone, updateById, updEvents, applyEvents, applyEventMsg]
        · simp [h1, h2, hp, hc, eventDone, updateById, updEvents, applyEvents, applyEventMsg]
    · simp [h1, h2, eventDone,
        show (fun m => updEvents aid [SseEvent.skip] m) = id from by
          funext m; simp [updEvents, applyEvents, applyEventMsg]]

theorem updEvents_comp_fun (aid : Str) (e : SseEvent) (es : List SseEvent) :
    (updEvents aid es ∘ updEvents aid [e]) = updEvents aid (e :: es) := by
  funext m
  simpa using updEvents_comp aid [e] es m

theorem processLines_spec (aid : Str) (msgs : List Msg) (ls : List Str) :
    processLines aid msgs ls =
      ⟨msgs.map (updEvents aid ((takeUsed ls).1.map decodeLine)),
       (takeUsed ls).2, (takeUsed ls).1⟩ := by
  induction ls generalizing msgs with
  | nil => simp [processLines, takeUsed, updEvents_nil]
  | cons l ls ih =>
    by_cases hd : eventDone (decodeLine l) = true
    · simp [processLines, processLine_decode, takeUsed, hd]
    · simp [processLines, processLine_decode, takeUsed, hd, ih,
        List.map_map, updEvents_comp_fun]

theorem updEvents_comp_fun2 (aid : Str) (es1 es2 : List SseEvent) :
    (updEvents aid es2 ∘ updEvents aid es1) = updEvents aid (es1 ++ es2) := by
  funext m
  simpa using updEvents_comp aid es1 es2 m

theorem takeUsed_append (xs ys : List Str) :
    takeUsed (xs ++ ys) =
      (if (takeUsed xs).2 then takeUsed xs
       else ((takeUsed xs).1 ++ (takeUsed ys).1, (takeUsed ys).2)) := by
  induction xs with
  | nil => simp [takeUsed]
  | cons l ls ih =>
    by_cases hd : eventDone (decodeLine l) = true
    · simp [takeUsed, hd]
    · by_cases h2 : (takeUsed ls).2 = true
      · simp [takeUsed, hd, ih, h2]
      · simp [takeUsed, hd, ih, h2]

theorem streamLines_join (buf : Str) (cs : List Str) (h : '\n' ∉ buf) :
    streamLines buf cs = (splitNl (buf ++ cs.flatten)).1 := by
  induction cs generalizing buf with
  | nil => simp [streamLines, splitNl_of_no_newline buf h]
  | cons c cs ih =>
    rw [streamLines]
    rw [ih _ (splitNl_no_newline_snd _)]
    rw [show (c :: cs).flatten = c ++ cs.flatten from rfl,
        show buf ++ (c ++ cs.flatten) = (buf ++ c) ++ cs.flatten by simp,
        splitNl_append (buf ++ c) cs.flatten]

theorem runChunks_spec (aid : Str) (msgs : List Msg) (buf : Str) (cs : List Str) :
    (runChunks aid msgs buf cs).1 =
      ⟨msgs.map (updEvents aid ((takeUsed (streamLines buf cs)).1.map decodeLine)),
       (takeUsed (streamLines buf cs)).2,
       (takeUsed (streamLines buf cs)).1⟩ := by
  induction cs generalizing msgs buf with
  | nil => simp [runChunks, streamLines, takeUsed, updEvents_nil]
  | cons c cs ih =>
    rw [runChunks, streamLines]
    by_cases hd : (takeUsed (splitNl (buf ++ c)).1).2 = true
    · simp [processChunk, processLines_spec, hd, takeUsed_append]
    · simp [processChunk, processLines_spec, hd, takeUsed_append, ih,
        List.map_map, updEvents_comp_fun2]

theorem runChunks_append (aid : Str) (msgs : List Msg) (buf : Str) (cs1 cs2 : List Str) :
    runChunks aid msgs buf (cs1 ++ cs2) =
      (if (runChunks aid msgs buf cs1).1.done then runChunks aid msgs buf cs1
       else
         ((⟨(runChunks aid (runChunks aid msgs buf cs1).1.msgs
              (runChunks aid msgs buf cs1).2 cs2).1.msgs,
            (runChunks aid (runChunks aid msgs buf cs1).1.msgs
              (runChunks aid msgs buf cs1).2 cs2).1.done,
            (runChunks aid msgs buf cs1).1.used ++
            (runChunks aid (runChunks aid msgs buf cs1).1.msgs
              (runChunks aid msgs buf cs1).2 cs2).1.used⟩ : RunOut),
          (runChunks aid (runChunks aid msgs buf cs1).1.msgs
            (runChunks aid msgs buf cs1).2 cs2).2)) := by
  induction cs1 generalizing msgs buf with
  | nil => simp [runChunks]
  | cons c cs ih =>
    rw [List.cons_append, runChunks, runChunks]
    by_cases hd : (processChunk aid msgs buf c).1.done = true
    · simp [hd]
    · by_cases h2 : (runChunks aid (processChunk aid msgs buf c).1.msgs
          (processChunk aid msgs buf c).2 cs).1.done = true
      · simp [hd, ih, h2]
      · simp [hd, ih, h2]

/-- Claim C1: for every byte stream and every way of splitting it into
chunks at arbitrary boundaries, the buffering/line-extraction loop of
`handleSubmit` processes the same sequence of lines (hence decoded events),
reaches the same termination flag, and produces the same final message
list — fragmentation invariance of the buffering algorithm. -/
theorem c1_fragmentation_invariance (aid : Str) (msgs : List Msg) (cs1 cs2 : List Str)
    (h : cs1.flatten = cs2.flatten) :
    (runChunks aid msgs [] cs1).1 = (runChunks aid msgs [] cs2).1 := by
  rw [runChunks_spec, runChunks_spec,
      streamLines_join [] cs1 (by simp), streamLines_join [] cs2 (by simp), h]

/-- Witness for C1 at a concrete stream split two different ways. -/
theorem c1_fragmentation_invariance_witness :
    ([lit "data: \x7b\"token\":\"a\",\"done\":true\x7d\n"] : List Str).flatten
      = ([lit "data: \x7b\"tok", lit "en\":\"a\",\"done\":true\x7d\n"] : List Str).flatten
    ∧ (runChunks (asstId 0) [mkAsstMsg 0] []
        [lit "data: \x7b\"token\":\"a\",\"done\":true\x7d\n"]).1
      = (runChunks (asstId 0) [mkAsstMsg 0] []
        [lit "data: \x7b\"tok", lit "en\":\"a\",\"done\":true\x7d\n"]).1 :=
  ⟨by decide, c1_fragmentation_invariance _ _ _ _ (by decide)⟩

/-- Claim C3: the first decoded event whose `done` field is truthy ends the
interaction: processing any further chunks changes nothing (the submission
result equals the one for the truncated stream, regardless of how the
transport behaves afterwards), and the in-flight flag ends up false. -/
theorem c3_first_done_ends (st : UIState) (tU tA : Nat) (cs1 cs2 : List Str) (r1 r2 : Bool)
    (hacc : ¬(jsTrim st.input = [] ∨ st.isGenerating = true))
    (hdone : (runChunks (asstId tA)
        (st.messages ++ [mkUserMsg tU (jsTrim st.input), mkAsstMsg tA]) [] cs1).1.done
      = true) :
    handleSubmit st tU tA (.stream (cs1 ++ cs2) r1) = handleSubmit st tU tA (.stream cs1 r2)
    ∧ (handleSubmit st tU tA (.stream (cs1 ++ cs2) r1)).1.isGenerating = false := by
  constructor
  · simp [handleSubmit, hacc, runChunks_append, hdone]
  · simp [handleSubmit, hacc, runChunks_append, hdone]

/-- Witness for C3: a stream whose first chunk already carries `done = true`
followed by a further chunk that is provably ignored. -/
theorem c3_first_done_ends_witness :
    handleSubmit ⟨[], lit "hello", false⟩ 1 2
        (.stream ([lit "data: \x7b\"token\":\"A\",\"done\":true\x7d\n"]
          ++ [lit "data: \x7b\"token\":\"B\",\"done\":false\x7d\n"]) true)
      = handleSubmit ⟨[], lit "hello", false⟩ 1 2
          (.stream [lit "data: \x7b\"token\":\"A\",\"done\":true\x7d\n"] false)
    ∧ (handleSubmit ⟨[], lit "hello", false⟩ 1 2
        (.stream ([lit "data: \x7b\"token\":\"A\",\"done\":true\x7d\n"]
          ++ [lit "data: \x7b\"token\":\"B\",\"done\":false\x7d\n"]) true)).1.isGenerating
      = false :=
  c3_first_done_ends ⟨[], lit "hello", false⟩ 1 2
    [lit "data: \x7b\"token\":\"A\",\"done\":true\x7d\n"]
    [lit "data: \x7b\"token\":\"B\",\"done\":false\x7d\n"] true false
    (by decide) (by decide)

/-- Claim C6: submitting empty or whitespace-only input, or submitting while
a request is in flight, is a complete no-op: the state is unchanged and no
network request is issued. -/
theorem c6_reject_noop (st : UIState) (tU tA : Nat) (out : FetchOutcome)
    (h : jsTrim st.input = [] ∨ st.isGenerating = true) :
    handleSubmit st tU tA out = (st, false) := by
  simp [handleSubmit, h]

/-- Witness for C6: a whitespace-only input and an in-flight submission are
both rejected without any state change. -/
theorem c6_reject_noop_witness :
    handleSubmit ⟨[], lit "   ", false⟩ 0 0 .httpError = (⟨[], lit "   ", false⟩, false)
    ∧ handleSubmit ⟨[], lit "hi", true⟩ 0 0 .httpError = (⟨[], lit "hi", true⟩, false) :=
  ⟨c6_reject_noop _ 0 0 _ (Or.inl (by decide)),
   c6_reject_noop _ 0 0 _ (Or.inr rfl)⟩

theorem lit_user_dash : lit "user-" = ['u', 's', 'e', 'r', '-'] := rfl

theorem lit_asst_dash :
    lit "assistant-" = ['a', 's', 's', 'i', 's', 't', 'a', 'n', 't', '-'] := rfl

/-- Decimal value of a digit string; left inverse of `natRepr`. -/
def decVal (s : Str) : Nat := s.foldl (fun a c => a * 10 + (c.toNat - 48)) 0

theorem digitChar_toNat (k : Nat) (h : k < 10) : (Nat.digitChar k).toNat - 48 = k := by
  interval_cases k <;> rfl

theorem decVal_append_digit (s : Str) (c : Char) :
    decVal (s ++ [c]) = decVal s * 10 + (c.toNat - 48) := by
  simp [decVal, List.foldl_append]

theorem decVal_natReprAux (fuel n : Nat) (hf : n < fuel) :
    decVal (natReprAux fuel n) = n := by
  induction fuel generalizing n with
  | zero => omega
  | succ fuel ih =>
    rw [natReprAux]
    by_cases h : n < 10
    · rw [if_pos h]
      simp [decVal, digitChar_toNat n h]
    · rw [if_neg h, decVal_append_digit,
          ih (n / 10) (by omega),
          digitChar_toNat (n % 10) (Nat.mod_lt _ (by omega))]
      omega

theorem decVal_natRepr (n : Nat) : decVal (natRepr n) = n :=
  decVal_natReprAux (n + 1) n (by omega)

theorem natRepr_inj {a b : Nat} (h : natRepr a = natRepr b) : a = b := by
  have h2 := congrArg decVal h
  simpa [decVal_natRepr] using h2

theorem userId_ne_asstId (t t' : Nat) : userId t ≠ asstId t' := by
  intro h
  have h3 := congrArg (fun s => s.headD ' ') h
  simp [userId, asstId, lit_user_dash, lit_asst_dash] at h3

theorem userId_inj {t t' : Nat} (h : userId t = userId t') : t = t' := by
  apply natRepr_inj
  simpa [userId, lit_user_dash] using h

theorem asstId_inj {t t' : Nat} (h : asstId t = asstId t') : t = t' := by
  apply natRepr_inj
  simpa [asstId, lit_asst_dash] using h

theorem asst_isPrefixOf_asstId (t : Nat) :
    (lit "assistant-").isPrefixOf (asstId t) = true := by
  rw [asstId, List.isPrefixOf_iff_prefix]
  exact List.prefix_append _ _

theorem asst_not_isPrefixOf_userId (t : Nat) :
    (lit "assistant-").isPrefixOf (userId t) = false := by
  rw [userId, lit_user_dash, lit_asst_dash]
  simp [List.isPrefixOf]

/-- Claim C10 (frame of the error path, page.tsx:206-217): the catch handler
replaces only assistant-prefixed messages whose content is still empty with
the fallback notice; any message that already holds content, any message
without the assistant id prefix (in particular every user message the client
creates), is passed through unchanged. -/
theorem c10_error_frame (msgs : List Msg) :
    applyCatch msgs = msgs.map catchFix
    ∧ (∀ m : Msg, (lit "assistant-").isPrefixOf m.id = true → m.content = [] →
        catchFix m = { m with content := fallbackText })
    ∧ (∀ m : Msg, m.content ≠ [] → catchFix m = m)
    ∧ (∀ m : Msg, (lit "assistant-").isPrefixOf m.id = false → catchFix m = m)
    ∧ (∀ (t : Nat) (c : Str), catchFix (mkUserMsg t c) = mkUserMsg t c) := by
  refine ⟨rfl, ?_, ?_, ?_, ?_⟩
  · intro m h1 h2
    simp [catchFix, h1, h2]
  · intro m h2
    simp [catchFix, h2]
  · intro m h1
    simp [catchFix, h1]
  · intro t c
    simp [catchFix, mkUserMsg, asst_not_isPrefixOf_userId]

/-- Witness for C10 at a concrete message list: the empty assistant
placeholder is overwritten, a partially streamed assistant message and a
user message are untouched. -/
theorem c10_error_frame_witness :
    applyCatch [mkUserMsg 3 (lit "hi"), mkAsstMsg 4]
      = [mkUserMsg 3 (lit "hi"), mkAsstMsg 4].map catchFix
    ∧ catchFix (mkAsstMsg 4) = { mkAsstMsg 4 with content := fallbackText }
    ∧ catchFix { mkAsstMsg 4 with content := lit "Hi" }
      = { mkAsstMsg 4 with content := lit "Hi" }
    ∧ catchFix (mkUserMsg 3 (lit "hi")) = mkUserMsg 3 (lit "hi") :=
  ⟨(c10_error_frame [mkUserMsg 3 (lit "hi"), mkAsstMsg 4]).1,
   (c10_error_frame []).2.1 (mkAsstMsg 4) (asst_isPrefixOf_asstId 4) rfl,
   (c10_error_frame []).2.2.1 { mkAsstMsg 4 with content := lit "Hi" } (by decide),
   (c10_error_frame []).2.2.2.2 3 (lit "hi")⟩

/-- Claim C5: a non-success HTTP status (which `handleSubmit` turns into a
thrown error at page.tsx:106-108) ends the submission with the assistant
message content equal to the fixed connectivity-failure text and the
in-progress flag false (a request was issued). -/
theorem c5_http_error (st : UIState) (tU tA : Nat)
    (hacc : ¬(jsTrim st.input = [] ∨ st.isGenerating = true)) :
    (handleSubmit st tU tA .httpError).1.isGenerating = false
    ∧ (handleSubmit st tU tA .httpError).1.messages.getLast?
        = some { mkAsstMsg tA with content := fallbackText }
    ∧ (handleSubmit st tU tA .httpError).2 = true := by
  have hfix : catchFix (mkAsstMsg tA) = { mkAsstMsg tA with content := fallbackText } := by
    simp [catchFix, mkAsstMsg, asst_isPrefixOf_asstId]
  refine ⟨by simp [handleSubmit, hacc], ?_, by simp [handleSubmit, hacc]⟩
  simp [handleSubmit, hacc, applyCatch, hfix]

/-- Witness for C5 at a concrete state. -/
theorem c5_http_error_witness :
    (handleSubmit ⟨[], lit "hello", false⟩ 0 1 .httpError).1.isGenerating = false
    ∧ (handleSubmit ⟨[], lit "hello", false⟩ 0 1 .httpError).1.messages.getLast?
        = some { mkAsstMsg 1 with content := fallbackText }
    ∧ (handleSubmit ⟨[], lit "hello", false⟩ 0 1 .httpError).2 = true :=
  c5_http_error ⟨[], lit "hello", false⟩ 0 1 (by decide)

/-- Claim C9 is refuted as stated: ids come from `Date.now()`, which is not
strictly monotone, so two submissions within the same millisecond produce
duplicate ids.  Here two accepted submissions both read clock value 7: the
first and third messages are distinct (different content) yet share the id
`user-7`, and likewise the two assistant placeholders share `assistant-7`. -/
theorem c9_counterexample :
    ((handleSubmit
        { (handleSubmit ⟨[], lit "a", false⟩ 7 7 (.stream [] false)).1 with
          input := lit "b" } 7 7 (.stream [] false)).1.messages.map Msg.id)
      = [userId 7, asstId 7, userId 7, asstId 7]
    ∧ ((handleSubmit
        { (handleSubmit ⟨[], lit "a", false⟩ 7 7 (.stream [] false)).1 with
          input := lit "b" } 7 7 (.stream [] false)).1.messages.map Msg.content)
      = [lit "a", [], lit "b", []] := by
  constructor <;> rfl

/-- Claim C9 amended: within one submission the user and assistant ids
always differ (distinct role prefixes), and ids of different submissions are
distinct provided their `Date.now()` readings differ; uniqueness can only
fail when two submissions share a clock millisecond. -/
theorem c9_amended_unique_ids (t t' : Nat) (h : t ≠ t') :
    (∀ a b : Nat, userId a ≠ asstId b)
    ∧ userId t ≠ userId t' ∧ asstId t ≠ asstId t' :=
  ⟨userId_ne_asstId, fun hh => h (userId_inj hh), fun hh => h (asstId_inj hh)⟩

/-- Witness for the amended C9 at concrete clock readings. -/
theorem c9_amended_unique_ids_witness :
    ((∀ a b : Nat, userId a ≠ asstId b)
    ∧ userId 0 ≠ userId 1 ∧ asstId 0 ≠ asstId 1) :=
  c9_amended_unique_ids 0 1 (by decide)

/-- Claim C4 is refuted as stated: an exception caught after tokens have
already streamed does not overwrite the assistant message — the catch
handler (page.tsx:209) only rewrites assistant messages whose content is
still empty.  Concretely, a token `"Hi"` followed by a network exception
leaves the assistant content at `"Hi"`, not at the fallback notice. -/
theorem c4_counterexample :
    ((handleSubmit ⟨[], lit "hello", false⟩ 0 1
        (.stream [lit "data: \x7b\"token\":\"Hi\",\"done\":false\x7d\n"] true)).1.messages.map
          Msg.content)
      = [lit "hello", lit "Hi"]
    ∧ lit "Hi" ≠ fallbackText
    ∧ (handleSubmit ⟨[], lit "hello", false⟩ 0 1
        (.stream [lit "data: \x7b\"token\":\"Hi\",\"done\":false\x7d\n"] true)).1.isGenerating
      = false := by
  refine ⟨by rfl, by decide, by rfl⟩

/-- Claim C4 amended: any exception during streaming is caught; the
in-flight flag is always cleared so a new submission is accepted, the catch
handler is applied to the message list as streamed so far, and it writes the
same fixed fallback notice as the HTTP-error case — but only into assistant
messages whose content is still empty. -/
theorem c4_amended_exception (st : UIState) (tU tA : Nat) (cs : List Str)
    (hacc : ¬(jsTrim st.input = [] ∨ st.isGenerating = true))
    (hnd : (runChunks (asstId tA)
        (st.messages ++ [mkUserMsg tU (jsTrim st.input), mkAsstMsg tA]) [] cs).1.done
      = false) :
    (handleSubmit st tU tA (.stream cs true)).1.isGenerating = false
    ∧ (handleSubmit st tU tA (.stream cs true)).1.messages
        = applyCatch ((runChunks (asstId tA)
            (st.messages ++ [mkUserMsg tU (jsTrim st.input), mkAsstMsg tA]) [] cs).1.msgs)
    ∧ (∀ m : Msg, (lit "assistant-").isPrefixOf m.id = true → m.content = [] →
        catchFix m = { m with content := fallbackText })
    ∧ (∀ (i : Str) (out : FetchOutcome) (tU' tA' : Nat), jsTrim i ≠ [] →
        (handleSubmit { (handleSubmit st tU tA (.stream cs true)).1 with input := i }
          tU' tA' out).2 = true) := by
  refine ⟨by simp [handleSubmit, hacc, hnd], by simp [handleSubmit, hacc, hnd], ?_, ?_⟩
  · intro m h1 h2
    simp [catchFix, h1, h2]
  · intro i out tU' tA' hi
    set st2 := (handleSubmit st tU tA (.stream cs true)).1 with hst2
    have hgen : st2.isGenerating = false := by
      rw [hst2]; simp [handleSubmit, hacc, hnd]
    cases out with
    | httpError => simp [handleSubmit, hi, hgen]
    | stream chunks r =>
      simp [handleSubmit, hi, hgen]
      split
      · rfl
      · split <;> rfl

/-- Witness for the amended C4: one token streams, then the connection
drops; the flag clears, the catch map is applied, and resubmission works. -/
theorem c4_amended_exception_witness :
    ((handleSubmit ⟨[], lit "hello", false⟩ 0 1
        (.stream [lit "data: \x7b\"token\":\"Hi\",\"done\":false\x7d\n"] true)).1.isGenerating
      = false)
    ∧ (handleSubmit ⟨[], lit "hello", false⟩ 0 1
        (.stream [lit "data: \x7b\"token\":\"Hi\",\"done\":false\x7d\n"] true)).1.messages
        = applyCatch ((runChunks (asstId 1)
            ([] ++ [mkUserMsg 0 (jsTrim (lit "hello")), mkAsstMsg 1]) []
            [lit "data: \x7b\"token\":\"Hi\",\"done\":false\x7d\n"]).1.msgs)
    ∧ (∀ m : Msg, (lit "assistant-").isPrefixOf m.id = true → m.content = [] →
        catchFix m = { m with content := fallbackText })
    ∧ (∀ (i : Str) (out : FetchOutcome) (tU' tA' : Nat), jsTrim i ≠ [] →
        (handleSubmit { (handleSubmit ⟨[], lit "hello", false⟩ 0 1
            (.stream [lit "data: \x7b\"token\":\"Hi\",\"done\":false\x7d\n"] true)).1 with
          input := i } tU' tA' out).2 = true) :=
  c4_amended_exception ⟨[], lit "hello", false⟩ 0 1
    [lit "data: \x7b\"token\":\"Hi\",\"done\":false\x7d\n"] (by decide) (by decide)

/-- Claim C8: a line whose payload after the `data: ` prefix is not valid
JSON is skipped — the model of `JSON.parse` returns `none` exactly where it
throws, the `try`/`catch` around it (page.tsx:137-191) keeps the exception
inside the line loop, the message list is untouched, and every subsequent
line is processed exactly as it would have been without the bad line. -/
theorem c8_bad_json_skipped (aid : Str) (msgs : List Msg) (line : Str) (ls : List Str)
    (hpre : (lit "data: ").isPrefixOf line = true)
    (hbad : parseJson (line.drop 6) = none) :
    processLine aid msgs line = (msgs, false)
    ∧ (processLines aid msgs (line :: ls)).msgs = (processLines aid msgs ls).msgs
    ∧ (processLines aid msgs (line :: ls)).done = (processLines aid msgs ls).done := by
  have h1 : processLine aid msgs line = (msgs, false) := by
    unfold processLine
    by_cases ht : jsTrim line = []
    · simp [ht]
    · simp [ht, hpre, hbad]
  refine ⟨h1, ?_, ?_⟩ <;> simp [processLines, h1]

/-- Witness for C8: the bad line `data: not json` is skipped and a following
token line still parses. -/
theorem c8_bad_json_skipped_witness :
    processLine (asstId 0) [mkAsstMsg 0] (lit "data: not json") = ([mkAsstMsg 0], false)
    ∧ (processLines (asstId 0) [mkAsstMsg 0]
        [lit "data: not json", lit "data: \x7b\"token\":\"Y\",\"done\":false\x7d"]).msgs
      = (processLines (asstId 0) [mkAsstMsg 0]
          [lit "data: \x7b\"token\":\"Y\",\"done\":false\x7d"]).msgs
    ∧ (processLines (asstId 0) [mkAsstMsg 0]
        [lit "data: not json", lit "data: \x7b\"token\":\"Y\",\"done\":false\x7d"]).done
      = (processLines (asstId 0) [mkAsstMsg 0]
          [lit "data: \x7b\"token\":\"Y\",\"done\":false\x7d"]).done :=
  c8_bad_json_skipped (asstId 0) [mkAsstMsg 0] (lit "data: not json")
    [lit "data: \x7b\"token\":\"Y\",\"done\":false\x7d"] (by decide) (by rfl)

/-- True when no event in the list is a cards event. -/
def tokensOnly (es : List SseEvent) : Bool :=
  es.all (fun e => match e with | .cards _ _ => false | _ => true)

/-- Concatenation of the token texts of a list of events, in emission
order. -/
def tokensText (es : List SseEvent) : Str :=
  (es.map (fun e => match e with | .token t _ => t | _ => [])).flatten

theorem applyEvents_cons (e : SseEvent) (es : List SseEvent) (m : Msg) :
    applyEvents (e :: es) m = applyEvents es (applyEventMsg e m) := rfl

theorem applyEvents_role (es : List SseEvent) (m : Msg) :
    (applyEvents es m).role = m.role := by
  induction es generalizing m with
  | nil => rfl
  | cons e es ih =>
    rw [applyEvents_cons, ih]
    cases e <;> rfl

theorem applyEvents_tokensOnly (es : List SseEvent) (m : Msg)
    (h : tokensOnly es = true) :
    applyEvents es m = { m with content := m.content ++ tokensText es } := by
  induction es generalizing m with
  | nil => simp [applyEvents, tokensText]
  | cons e es ih =>
    cases e with
    | token t d =>
      have h' : tokensOnly es = true := by simpa [tokensOnly] using h
      rw [applyEvents_cons, ih _ h']
      simp [applyEventMsg, tokensText]
    | cards d dn => simp [tokensOnly] at h
    | skip =>
      have h' : tokensOnly es = true := by simpa [tokensOnly] using h
      rw [applyEvents_cons, ih _ h']
      simp [applyEventMsg, tokensText]

theorem applyEvents_concat_cards (es : List SseEvent) (d : Option Json) (dn : Bool) (m : Msg) :
    applyEvents (es ++ [.cards d dn]) m
      = { applyEvents es m with content := cardsContent, cardData := d } := by
  rw [applyEvents_append]
  rfl

theorem takeUsed_subset (ls : List Str) : ∀ l ∈ (takeUsed ls).1, l ∈ ls := by
  induction ls with
  | nil => simp [takeUsed]
  | cons l ls ih =>
    intro x hx
    by_cases hd : eventDone (decodeLine l) = true
    · simp [takeUsed, hd] at hx
      simp [hx]
    · simp only [takeUsed, hd, Bool.false_eq_true, if_false, ite_false] at hx
      rcases List.mem_cons.mp hx with rfl | hx
      · exact List.mem_cons_self x ls
      · exact List.mem_cons_of_mem l (ih x hx)

theorem takeUsed_shape (ls : List Str) :
    ((takeUsed ls).2 = false ∧ ∀ l ∈ (takeUsed ls).1, eventDone (decodeLine l) = false)
    ∨ (∃ us last, (takeUsed ls).1 = us ++ [last]
        ∧ (∀ l ∈ us, eventDone (decodeLine l) = false)
        ∧ eventDone (decodeLine last) = true
        ∧ (takeUsed ls).2 = true) := by
  induction ls with
  | nil => left; simp [takeUsed]
  | cons l ls ih =>
    by_cases hd : eventDone (decodeLine l) = true
    · right
      exact ⟨[], l, by simp [takeUsed, hd], by simp, hd, by simp [takeUsed, hd]⟩
    · rcases ih with ⟨h2, hall⟩ | ⟨us, last, heq, hus, hlast, h2⟩
      · left
        refine ⟨by simp [takeUsed, hd, h2], ?_⟩
        intro x hx
        simp only [takeUsed, hd, Bool.false_eq_true, if_false, ite_false] at hx
        rcases List.mem_cons.mp hx with rfl | hx
        · simpa using hd
        · exact hall x hx
      · right
        refine ⟨l :: us, last, ?_, ?_, hlast, ?_⟩
        · simp [takeUsed, hd, heq]
        · intro x hx
          rcases List.mem_cons.mp hx with rfl | hx
          · simpa using hd
          · exact hus x hx
        · simp [takeUsed, hd, h2]

theorem map_updEvents_of_ne (aid : Str) (es : List SseEvent) (l : List Msg)
    (h : ∀ m ∈ l, m.id ≠ aid) :
    l.map (updEvents aid es) = l := by
  induction l with
  | nil => rfl
  | cons m ms ih =>
    rw [List.map_cons, ih (fun x hx => h x (List.mem_cons_of_mem m hx))]
    simp [updEvents, h m (List.mem_cons_self m ms)]

/-- Claim C2 is refuted as stated: a cards event whose `done` is false
followed by a token event leaves the assistant message holding a mix —
`cardData` is set while the content string is the cards placeholder with the
token appended, which is neither the pure token text nor the pure cards
content. -/
theorem c2_counterexample :
    ((handleSubmit ⟨[], lit "q", false⟩ 0 1
        (.stream [lit "data: \x7b\"type\":\"cards\",\"done\":false,\"data\":\x7b\x7d\x7d\n",
                  lit "data: \x7b\"token\":\"X\",\"done\":true\x7d\n"] false)).1.messages.map
          Msg.content)
      = [lit "q", lit "Work Order Search ResultsX"]
    ∧ lit "Work Order Search ResultsX" ≠ cardsContent
    ∧ lit "Work Order Search ResultsX" ≠ lit "X"
    ∧ ((handleSubmit ⟨[], lit "q", false⟩ 0 1
        (.stream [lit "data: \x7b\"type\":\"cards\",\"done\":false,\"data\":\x7b\x7d\x7d\n",
                  lit "data: \x7b\"token\":\"X\",\"done\":true\x7d\n"] false)).1.messages.map
          (fun m => m.cardData.isSome))
      = [false, true] :=
  ⟨by rfl, by decide, by decide, by rfl⟩

/-- Claim C2 amended: per accepted submission exactly one assistant message
is appended; if every cards event the stream delivers is terminal
(`done = true`, as the protocol's glossary assumes), its final state is
either fully textual (no cards event processed, content exactly the ordered
concatenation of the token texts, no `cardData`) or fully structured (a
cards event was processed last: content is the fixed cards placeholder and
`cardData` is that event's payload) — and a cards event overwrites any prior
token text unconditionally.  Without the terminal-cards assumption a
non-final cards event lets later tokens append to the placeholder text (see
the counterexample). -/
theorem c2_amended_single_pure_message (st : UIState) (tU tA : Nat) (cs : List Str)
    (hacc : ¬(jsTrim st.input = [] ∨ st.isGenerating = true))
    (hfresh : ∀ m ∈ st.messages, m.id ≠ asstId tA)
    (hterm : ∀ l ∈ (splitNl cs.flatten).1, ∀ (d : Option Json) (dn : Bool),
        decodeLine l = SseEvent.cards d dn → dn = true) :
    ∃ a' : Msg,
      (handleSubmit st tU tA (.stream cs false)).1.messages
        = st.messages ++ [mkUserMsg tU (jsTrim st.input), a']
      ∧ a'.id = asstId tA
      ∧ a'.role = Role.assistant
      ∧ ((a'.cardData = none
            ∧ a'.content = tokensText ((takeUsed (splitNl cs.flatten).1).1.map decodeLine)
            ∧ tokensOnly ((takeUsed (splitNl cs.flatten).1).1.map decodeLine) = true)
         ∨ (a'.content = cardsContent
            ∧ ∃ (d : Option Json) (dn : Bool),
                ((takeUsed (splitNl cs.flatten).1).1.map decodeLine).getLast?
                  = some (SseEvent.cards d dn)
                ∧ a'.cardData = d))
      ∧ (∀ (m : Msg) (d : Option Json) (dn : Bool),
          (applyEventMsg (SseEvent.cards d dn) m).content = cardsContent
          ∧ (applyEventMsg (SseEvent.cards d dn) m).cardData = d) := by
  have hlines : streamLines [] cs = (splitNl cs.flatten).1 := by
    rw [streamLines_join [] cs (by simp)]
    simp
  have hmsgs : (handleSubmit st tU tA (.stream cs false)).1.messages
      = ((st.messages ++ [mkUserMsg tU (jsTrim st.input), mkAsstMsg tA]).map
          (updEvents (asstId tA) ((takeUsed (splitNl cs.flatten).1).1.map decodeLine))) := by
    have h0 : (handleSubmit st tU tA (.stream cs false)).1.messages
        = (runChunks (asstId tA)
            (st.messages ++ [mkUserMsg tU (jsTrim st.input), mkAsstMsg tA]) [] cs).1.msgs := by
      by_cases hdn : (runChunks (asstId tA)
          (st.messages ++ [mkUserMsg tU (jsTrim st.input), mkAsstMsg tA]) [] cs).1.done = true
      · simp [handleSubmit, hacc, hdn]
      · simp [handleSubmit, hacc, hdn]
    rw [h0, runChunks_spec, hlines]
  have hnc : ∀ l ∈ (takeUsed (splitNl cs.flatten).1).1,
      eventDone (decodeLine l) = false →
      ∀ (d : Option Json) (dn : Bool), decodeLine l ≠ SseEvent.cards d dn := by
    intro l hl hdone d dn hdl
    have ht := hterm l (takeUsed_subset _ l hl) d dn hdl
    rw [hdl] at hdone
    simp [eventDone] at hdone
    rw [ht] at hdone
    exact absurd hdone (by decide)
  refine ⟨applyEvents ((takeUsed (splitNl cs.flatten).1).1.map decodeLine) (mkAsstMsg tA),
    ?_, ?_, ?_, ?_, ?_⟩
  · rw [hmsgs, List.map_append]
    congr 1
    · exact map_updEvents_of_ne _ _ _ hfresh
    · simp [updEvents, mkUserMsg, mkAsstMsg, userId_ne_asstId tU tA]
  · rw [applyEvents_id]
    rfl
  · rw [applyEvents_role]
    rfl
  · rcases takeUsed_shape (splitNl cs.flatten).1 with ⟨_, hall⟩ | ⟨us, last, heq, hus, hlast, _⟩
    · left
      have htok : tokensOnly ((takeUsed (splitNl cs.flatten).1).1.map decodeLine) = true := by
        apply List.all_eq_true.mpr
        intro e he
        rcases List.mem_map.mp he with ⟨l, hl, rfl⟩
        cases hdl : decodeLine l with
        | cards d dn => exact absurd hdl (hnc l hl (hall l hl) d dn)
        | token t d => rfl
        | skip => rfl
      rw [applyEvents_tokensOnly _ _ htok]
      exact ⟨rfl, by simp [mkAsstMsg], htok⟩
    · cases hdl : decodeLine last with
      | cards d dn =>
        right
        have hevs : (takeUsed (splitNl cs.flatten).1).1.map decodeLine
            = us.map decodeLine ++ [SseEvent.cards d dn] := by
          rw [heq, List.map_append, List.map_singleton, hdl]
        rw [hevs, applyEvents_concat_cards]
        exact ⟨rfl, d, dn, by simp, rfl⟩
      | token t d =>
        left
        have htok : tokensOnly ((takeUsed (splitNl cs.flatten).1).1.map decodeLine) = true := by
          apply List.all_eq_true.mpr
          intro e he
          rcases List.mem_map.mp he with ⟨l, hl, rfl⟩
          rw [heq] at hl
          rcases List.mem_append.mp hl with h | h
          · cases hdl2 : decodeLine l with
            | cards d2 dn2 =>
              refine absurd hdl2 (hnc l ?_ (hus l h) d2 dn2)
              rw [heq]
              exact List.mem_append.mpr (Or.inl h)
            | token t2 d2 => rfl
            | skip => rfl
          · rcases List.mem_singleton.mp h with rfl
            rw [hdl]
        rw [applyEvents_tokensOnly _ _ htok]
        exact ⟨rfl, by simp [mkAsstMsg], htok⟩
      | skip =>
        rw [hdl] at hlast
        exact absurd hlast (by simp [eventDone])
  · intro m d dn
    exact ⟨rfl, rfl⟩

/-- Witness for the amended C2: a single terminal cards event yields the
fully structured outcome. -/
theorem c2_amended_single_pure_message_witness :
    ∃ a' : Msg,
      (handleSubmit ⟨[], lit "find", false⟩ 0 1
        (.stream [lit "data: \x7b\"type\":\"cards\",\"done\":true,\"data\":\x7b\"query\":\"q\"\x7d\x7d\n"]
          false)).1.messages
        = [] ++ [mkUserMsg 0 (jsTrim (lit "find")), a']
      ∧ a'.id = asstId 1
      ∧ a'.role = Role.assistant
      ∧ ((a'.cardData = none
            ∧ a'.content = tokensText ((takeUsed (splitNl
                ([lit "data: \x7b\"type\":\"cards\",\"done\":true,\"data\":\x7b\"query\":\"q\"\x7d\x7d\n"] : List Str).flatten).1).1.map decodeLine)
            ∧ tokensOnly ((takeUsed (splitNl
                ([lit "data: \x7b\"type\":\"cards\",\"done\":true,\"data\":\x7b\"query\":\"q\"\x7d\x7d\n"] : List Str).flatten).1).1.map decodeLine) = true)
         ∨ (a'.content = cardsContent
            ∧ ∃ (d : Option Json) (dn : Bool),
                ((takeUsed (splitNl
                  ([lit "data: \x7b\"type\":\"cards\",\"done\":true,\"data\":\x7b\"query\":\"q\"\x7d\x7d\n"] : List Str).flatten).1).1.map decodeLine).getLast?
                  = some (SseEvent.cards d dn)
                ∧ a'.cardData = d))
      ∧ (∀ (m : Msg) (d : Option Json) (dn : Bool),
          (applyEventMsg (SseEvent.cards d dn) m).content = cardsContent
          ∧ (applyEventMsg (SseEvent.cards d dn) m).cardData = d) :=
  c2_amended_single_pure_message ⟨[], lit "find", false⟩ 0 1
    [lit "data: \x7b\"type\":\"cards\",\"done\":true,\"data\":\x7b\"query\":\"q\"\x7d\x7d\n"]
    (by decide) (by simp)
    (by
      intro l hl d dn h
      rw [show (splitNl
          ([lit "data: \x7b\"type\":\"cards\",\"done\":true,\"data\":\x7b\"query\":\"q\"\x7d\x7d\n"] : List Str).flatten).1
        = [lit "data: \x7b\"type\":\"cards\",\"done\":true,\"data\":\x7b\"query\":\"q\"\x7d\x7d"] from rfl] at hl
      rcases List.mem_singleton.mp hl with rfl
      have h3 : eventDone (decodeLine
          (lit "data: \x7b\"type\":\"cards\",\"done\":true,\"data\":\x7b\"query\":\"q\"\x7d\x7d")) = true := by
        decide
      rw [h] at h3
      exact h3)

/-- Claim C7: token events append to the assistant content in emission
order — two token events applied in sequence append their texts in exactly
that order — and, concretely, submitting `hello` against a stream emitting
the token `Hi` (`done = false`) then the token ` there` (`done = true`)
yields exactly one assistant message with content `Hi there`, no card
payload, and the in-progress flag cleared. -/
theorem c7_token_order :
    (∀ (m : Msg) (a b : Str) (d1 d2 : Bool),
        (applyEvents [SseEvent.token a d1, SseEvent.token b d2] m).content
          = m.content ++ a ++ b)
    ∧ ((handleSubmit ⟨[], lit "hello", false⟩ 0 1
        (.stream [lit "data: \x7b\"token\":\"Hi\",\"done\":false\x7d\n",
                  lit "data: \x7b\"token\":\" there\",\"done\":true\x7d\n"] false)).1.messages.map
          Msg.content)
      = [lit "hello", lit "Hi there"]
    ∧ ((handleSubmit ⟨[], lit "hello", false⟩ 0 1
        (.stream [lit "data: \x7b\"token\":\"Hi\",\"done\":false\x7d\n",
                  lit "data: \x7b\"token\":\" there\",\"done\":true\x7d\n"] false)).1.messages.map
          Msg.role)
      = [Role.user, Role.assistant]
    ∧ ((handleSubmit ⟨[], lit "hello", false⟩ 0 1
        (.stream [lit "data: \x7b\"token\":\"Hi\",\"done\":false\x7d\n",
                  lit "data: \x7b\"token\":\" there\",\"done\":true\x7d\n"] false)).1.messages.map
          (fun m => m.cardData.isSome))
      = [false, false]
    ∧ (handleSubmit ⟨[], lit "hello", false⟩ 0 1
        (.stream [lit "data: \x7b\"token\":\"Hi\",\"done\":false\x7d\n",
                  lit "data: \x7b\"token\":\" there\",\"done\":true\x7d\n"] false)).1.isGenerating
      = false :=
  ⟨fun _ _ _ _ _ => rfl, by rfl, by rfl, by rfl, by rfl⟩
